import Mathlib

/-!
Verification of `screenorder.py` against its natural-language specification.

The Python program is shallowly embedded:
* Python dicts are association lists (`List (key × value)`) in insertion
  order, with unique keys; `set` objects are duplicate-free lists in
  insertion order.
* A monitor dict (and likewise a configuration entry, which is also just a
  dict in Python) is the record `Mon`, every optional key being an `Option`
  field; a JSON `null` value and an absent key are both `none`.
* Code that can raise an exception returns `Except Unit` / `Option`
  (`.error ()` / `none` standing for the raised exception).
* The two regular expressions of `parse_xrandr_output` are implemented as a
  deterministic character-list matcher (`modeLine`); the patterns
  `\s*(\d+x\d+) \(0x[0-9a-f]+\)` and the `+preferred` variant backtrack only
  over character classes that are disjoint from the literal that follows
  them, so the greedy matcher below is exactly equivalent on newline-free
  lines (the lines handed to the parser come from `splitlines` and never
  contain a newline).  ASCII digits/whitespace are used where Python,
  lacking `re.ASCII`, would also accept rarer Unicode ones.
* Printing is modelled by a ghost log of `LogEntry` values recording which
  diagnostics were emitted, and the in-place mutation performed by
  `configure_monitors` (`monitor.update(...)` and the primary-flag
  assignment both mutate the dicts held by the `monitors` argument) is
  modelled by returning the post-call state of that mapping.
-/

namespace Screenorder

/-- Value of a Python monitor/configuration dict: each optional key of the
dicts manipulated by `screenorder.py` becomes an `Option` field. -/
structure Mon where
  edid : Option String := none
  resolution : Option String := none
  rotate : Option String := none
  order : Option Int := none
  primary : Option Bool := none
  i3_workspaces : Option (List Int) := none
  description : Option String := none
deriving DecidableEq, Repr

/-! ### Character-level helpers for the line scanner -/

/-- Boolean prefix test on character lists (Python `str.startswith`). -/
def chStartsWith : List Char → List Char → Bool
  | [], _ => true
  | _ :: _, [] => false
  | a :: as, b :: bs => a == b && chStartsWith as bs

/-- Boolean substring test on character lists (Python `pat in s`). -/
def chContains (pat : List Char) : List Char → Bool
  | [] => pat.isEmpty
  | c :: rest => chStartsWith pat (c :: rest) || chContains pat rest

/-- Characters of `line.strip()`. -/
def lineTrim (line : String) : List Char :=
  ((line.toList.dropWhile Char.isWhitespace).reverse.dropWhile Char.isWhitespace).reverse

/-- First whitespace-separated token of a line (Python `line.split()[0]`,
total here; the program only evaluates it on lines starting with a
connector-name prefix, where the two agree). -/
def firstToken (line : String) : String :=
  String.mk ((line.toList.dropWhile Char.isWhitespace).takeWhile (fun c => !c.isWhitespace))

/-- Test for the four connector-name prefixes of an output header line. -/
def isHeaderLine (line : String) : Bool :=
  chStartsWith "DP-".toList line.toList || chStartsWith "HDMI-".toList line.toList ||
    chStartsWith "eDP-".toList line.toList || chStartsWith "DVI-".toList line.toList

/-- Lower-case hexadecimal digit, the class `[0-9a-f]`. -/
def isHexDigitLower (c : Char) : Bool :=
  c.isDigit || ('a' ≤ c && c ≤ 'f')

/-- Matcher for the mode-line pattern `\s*(\d+x\d+) \(0x[0-9a-f]+\)`
anchored at the start of the line (`re.match`).  On success it returns the
captured `<width>x<height>` characters together with the characters that
follow the closing parenthesis; the `+preferred` variant of the pattern
matches exactly when that remainder contains `+preferred`. -/
def modeLine (cs : List Char) : Option (List Char × List Char) :=
  let cs1 := cs.dropWhile Char.isWhitespace
  let d1 := cs1.takeWhile Char.isDigit
  match d1, cs1.dropWhile Char.isDigit with
  | _ :: _, 'x' :: cs3 =>
    let d2 := cs3.takeWhile Char.isDigit
    match d2, cs3.dropWhile Char.isDigit with
    | _ :: _, ' ' :: '(' :: '0' :: 'x' :: cs5 =>
      let hx := cs5.takeWhile isHexDigitLower
      match hx, cs5.dropWhile isHexDigitLower with
      | _ :: _, ')' :: rest => some (d1 ++ 'x' :: d2, rest)
      | _, _ => none
    | _, _ => none
  | _, _ => none

/-- Test for the `.*\+preferred` tail of the preferred-mode pattern. -/
def hasPreferred (rest : List Char) : Bool :=
  chContains "+preferred".toList rest

/-! ### The report parser (`parse_xrandr_output`) -/

/-- The two states of the line scanner. -/
inductive PMode where
  | scanning
  | munching
deriving DecidableEq, Repr

/-- Lookup in the result dict of the parser (whose key is the Python
variable `identifier`, which can be `None`). -/
def alGet (res : List (Option String × Mon)) (k : Option String) : Option Mon :=
  (res.find? (fun p => p.1 == k)).map (fun p => p.2)

/-- Dict assignment `res[k] = v`: replaces the value at an existing key in
place, otherwise appends the new binding. -/
def alSet (res : List (Option String × Mon)) (k : Option String) (v : Mon) :
    List (Option String × Mon) :=
  match res with
  | [] => [(k, v)]
  | (k0, v0) :: rest => if k0 == k then (k, v) :: rest else (k0, v0) :: alSet rest k v

/-- Set insertion `disabled.add(x)` (insertion-ordered, duplicate-free). -/
def setInsert (l : List String) (x : String) : List String :=
  if x ∈ l then l else l ++ [x]

/-- State of the parser loop.  `introduced` is a ghost field recording every
identity assigned to the `identifier` variable by a header line; it does not
influence the computation. -/
structure PState where
  mode : PMode := .scanning
  identifier : Option String := none
  res : List (Option String × Mon) := []
  disabled : List String := []
  tmp_res : List String := []
  introduced : List String := []
deriving DecidableEq, Repr

/-- Initial parser state. -/
def initState : PState := {}

/-- One iteration of the parser loop of `parse_xrandr_output` on a single
line; `.error ()` is the `KeyError` raised by `res[identifier]` when a
mode line is reached while the tracked identity has no entry yet. -/
def pstep (s : PState) (line : String) : Except Unit PState :=
  match s.mode with
  | .scanning =>
    if lineTrim line = "EDID:".toList then
      .ok { s with mode := .munching }
    else if isHeaderLine line then
      let tok := firstToken line
      let disabled' :=
        match s.identifier with
        | some prev => if (alGet s.res (some prev)).isNone then setInsert s.disabled prev
                       else s.disabled
        | none => s.disabled
      .ok { s with identifier := some tok, disabled := disabled',
                   introduced := s.introduced ++ [tok] }
    else
      match modeLine line.toList with
      | some (v, rest) =>
        match alGet s.res s.identifier with
        | none => .error ()
        | some mon =>
          if hasPreferred rest then
            .ok { s with res := alSet s.res s.identifier { mon with resolution := some (String.mk v) } }
          else if mon.resolution = none then
            .ok { s with res := alSet s.res s.identifier { mon with resolution := some (String.mk v) } }
          else
            .ok s
      | none => .ok s
  | .munching =>
    if line.toList.contains ':' then
      .ok { s with mode := .scanning,
                   res := alSet s.res s.identifier { edid := some (String.join s.tmp_res) },
                   tmp_res := [] }
    else
      .ok { s with tmp_res := s.tmp_res ++ [String.mk (lineTrim line)] }

/-- The parser loop over a list of lines. -/
def parse_lines (s : PState) : List String → Except Unit PState
  | [] => .ok s
  | line :: rest => do parse_lines (← pstep s line) rest

/-- Model of `parse_xrandr_output`; the input text is represented by its
list of lines (`splitlines`). -/
def parse_xrandr_output (lines : List String) :
    Except Unit (List (Option String × Mon) × List String) :=
  (parse_lines initState lines).map (fun s => (s.res, s.disabled))

/-! ### Resolution helpers (`get_x_resolution` / `get_y_resolution`) -/

/-- Python `s.split("x")` (splitting on the one-character separator). -/
def splitOnX : List Char → List (List Char)
  | [] => [[]]
  | c :: rest =>
    if c = 'x' then [] :: splitOnX rest
    else
      match splitOnX rest with
      | [] => [[c]]
      | p :: ps => (c :: p) :: ps

/-- Python `int(s)` on the strings produced here: a non-empty all-digit
string parses to its value, anything else raises (`none`). -/
def parseNatDigits (cs : List Char) : Option Nat :=
  if cs ≠ [] ∧ cs.all Char.isDigit then
    some (cs.foldl (fun a c => a * 10 + (c.toNat - 48)) 0)
  else none

/-- Condition `"rotate" in monitor and monitor["rotate"] in ["left", "right"]`. -/
def is_rotated (m : Mon) : Bool :=
  match m.rotate with
  | some r => r == "left" || r == "right"
  | none => false

/-- Model of `get_x_resolution`: effective horizontal extent in pixels;
`none` models the exceptions raised for a missing or malformed resolution. -/
def get_x_resolution (m : Mon) : Option Nat :=
  match m.resolution with
  | none => none
  | some rs =>
    let parts := splitOnX rs.toList
    if is_rotated m then (parts.get? 1).bind parseNatDigits
    else (parts.get? 0).bind parseNatDigits

/-- Model of `get_y_resolution`: effective vertical extent in pixels. -/
def get_y_resolution (m : Mon) : Option Nat :=
  match m.resolution with
  | none => none
  | some rs =>
    let parts := splitOnX rs.toList
    if is_rotated m then (parts.get? 0).bind parseNatDigits
    else (parts.get? 1).bind parseNatDigits

/-! ### The monitor resolver (`configure_monitors`) -/

/-- Diagnostics printed by `configure_monitors`, abstracted from their text. -/
inductive LogEntry where
  | unmatched (identifier : String)
  | collision
deriving DecidableEq, Repr

/-- Lookup `config.get(key, None)` in a string-keyed dict. -/
def alookup (config : List (String × Mon)) (k : String) : Option Mon :=
  (config.find? (fun p => p.1 == k)).map (fun p => p.2)

/-- Python `monitor.update(monitor_config)`: every key present in the
configuration entry overrides the monitor's value. -/
def update_mon (m c : Mon) : Mon :=
  { edid := c.edid <|> m.edid
    resolution := c.resolution <|> m.resolution
    rotate := c.rotate <|> m.rotate
    order := c.order <|> m.order
    primary := c.primary <|> m.primary
    i3_workspaces := c.i3_workspaces <|> m.i3_workspaces
    description := c.description <|> m.description }

/-- The matching loop of `configure_monitors`.  Returns
`(selected_monitors, post-loop state of the monitors dict, printed log)`;
the post-loop state reflects that `monitor.update` mutates the detected
monitors in place.  `.error ()` is the `KeyError` of `monitor["edid"]`. -/
def select_loop (config : List (String × Mon)) :
    List (String × Mon) →
    Except Unit (List (String × Mon) × List (String × Mon) × List LogEntry)
  | [] => .ok ([], [], [])
  | (k, m) :: rest =>
    match m.edid with
    | none => .error ()
    | some e =>
      match alookup config e with
      | none => do
        let (sel, ms, log) ← select_loop config rest
        .ok (sel, (k, m) :: ms, .unmatched k :: log)
      | some c => do
        let m' := update_mon m c
        let (sel, ms, log) ← select_loop config rest
        .ok ((k, m') :: sel, (k, m') :: ms, log)

/-- Order key used to sort the selected monitors (all of them carry an
order value at that point; see `configure_monitors_st`). -/
def orderKey (p : String × Mon) : Int :=
  p.2.order.getD 0

/-- Comparison used by `sorted(..., key=lambda item: item[1]["order"])`. -/
def monLE (a b : String × Mon) : Prop :=
  orderKey a ≤ orderKey b

instance : DecidableRel monLE := fun a b => inferInstanceAs (Decidable (_ ≤ _))

instance : IsTotal (String × Mon) monLE := ⟨fun _ _ => le_total _ _⟩

instance : IsTrans (String × Mon) monLE := ⟨fun _ _ _ => le_trans⟩

/-- Stable sort of the selected monitors by order key (Python `sorted`). -/
def sortByOrder (l : List (String × Mon)) : List (String × Mon) :=
  l.insertionSort monLE

/-- Evaluation of `monitor["order"]` over a list of monitors, raising
(`none`) as soon as one lacks an order key. -/
def optOrders : List (String × Mon) → Option (List Int)
  | [] => some []
  | (_, m) :: rest => do
    let o ← m.order
    let os ← optOrders rest
    return o :: os

/-- Result of `configure_monitors`: the returned layout (`none` models the
`return None` on an order collision), the post-call state of the detected
monitors dict (mutated in place by the call), and the printed diagnostics. -/
structure ConfigureResult where
  layout : Option (List (String × Mon))
  monitors : List (String × Mon)
  log : List LogEntry
deriving DecidableEq, Repr

/-- Model of `configure_monitors`, with the in-place mutation of the
`monitors` argument made explicit in the result. -/
def configure_monitors_st (monitors config : List (String × Mon)) :
    Except Unit ConfigureResult := do
  let (selected, ms, log) ← select_loop config monitors
  match optOrders selected with
  | none => .error ()
  | some orders =>
    if selected.length ≠ orders.dedup.length then
      .ok ⟨none, ms, log ++ [.collision]⟩
    else
      let ordered := sortByOrder selected
      let medianIdx := (ordered.length - 1) / 2
      match ordered.get? medianIdx with
      | none => .ok ⟨some ordered, ms, log⟩
      | some (mk, mm) =>
        let mm' := { mm with primary := some true }
        .ok ⟨some (ordered.set medianIdx (mk, mm')),
             ms.map (fun p => if p.1 == mk then (p.1, mm') else p), log⟩

/-- Value-level view of `configure_monitors` (the returned layout only). -/
def configure_monitors (monitors config : List (String × Mon)) :
    Option (List (String × Mon)) :=
  match configure_monitors_st monitors config with
  | .ok r => r.layout
  | .error _ => none

/-! ### The xrandr command builder (`generate_xrandr_command`) -/

/-- Evaluation of a fallible function over a list, raising (`none`) on the
first failure, as the Python loops and generator expressions do. -/
def optMap (f : α → Option β) : List α → Option (List β)
  | [] => some []
  | a :: as => do
    let b ← f a
    let bs ← optMap f as
    return b :: bs

/-- Running totals `itertools.accumulate`, starting from `acc`. -/
def accumulateFrom (acc : Nat) : List Nat → List Nat
  | [] => []
  | x :: xs => (acc + x) :: accumulateFrom (acc + x) xs

/-- Python `max` over a list (raises on an empty sequence). -/
def maxList : List Nat → Option Nat
  | [] => none
  | x :: xs => some (xs.foldl Nat.max x)

/-- One element of the `monitor_info` list of `generate_xrandr_command`. -/
structure XInfo where
  identifier : String
  resolution : String
  offset : Nat
  rotate : Option String
  primary : Option Bool
deriving DecidableEq, Repr

/-- The `monitor_info` list: monitors zipped with their resolution strings
and offsets (`zip` truncates to the shortest list, dropping the final
running total). -/
def monitor_info (oms : List (String × Mon)) (rs : List String) (offsets : List Nat) :
    List XInfo :=
  ((oms.zip rs).zip offsets).map
    (fun pr => ⟨pr.1.1.1, pr.1.2, pr.2, pr.1.1.2.rotate, pr.1.1.2.primary⟩)

/-- Clauses emitted for one enabled output. -/
def output_clause (force_panning : Bool) (e : XInfo) : List String :=
  ["--output", e.identifier, "--mode", e.resolution, "--pos",
    toString e.offset ++ "x0"] ++
  (if force_panning then
    ["--panning", e.resolution ++ "+" ++ toString e.offset ++ "+0"]
   else []) ++
  (match e.rotate with
   | some r => if r = "" then [] else ["--rotate", r]
   | none => []) ++
  (if e.primary.getD false then ["--primary"] else [])

/-- Clause emitted for one disabled output. -/
def disable_clause (identifier : String) : List String :=
  ["--output", identifier, "--off"]

/-- The `--fb` argument string. -/
def fbString (w h : Nat) : String :=
  toString w ++ "x" ++ toString h

/-- Model of `generate_xrandr_command`; `none` models the exceptions raised
for missing/malformed resolutions and for `max()` on an empty sequence. -/
def generate_xrandr_command (oms : List (String × Mon)) (disabled : List String)
    (force_panning : Bool) : Option (List String) := do
  let xs ← optMap (fun p => get_x_resolution p.2) oms
  let ys ← optMap (fun p => get_y_resolution p.2) oms
  let rs ← optMap (fun p => p.2.resolution) oms
  let fb_height ← maxList ys
  let offsets := 0 :: accumulateFrom 0 xs
  return ["xrandr", "--fb", fbString xs.sum fb_height] ++
    (monitor_info oms rs offsets).flatMap (output_clause force_panning) ++
    disabled.flatMap disable_clause

/-! ### The i3 command builder (`generate_i3_commands`) -/

/-- One workspace-reassignment command, abstracted from its `i3-msg`
rendering `workspace number {workspace}; move workspace to output {output}`
(which determines `workspace` and `output` uniquely). -/
structure I3Cmd where
  workspace : Int
  output : String
deriving DecidableEq, Repr

/-- Model of `generate_i3_commands`.  (The guard `if not is_i3_running()`
in the source is dead code: `is_i3_running` returns a `CompletedProcess`
object, which is always truthy.)  `none` models the `KeyError` raised when
a monitor has neither a workspace list nor an order key. -/
def generate_i3_commands : List (String × Mon) → Option (List I3Cmd)
  | [] => some []
  | (output, m) :: rest => do
    let cmds ←
      match m.i3_workspaces with
      | some ws => some (ws.map (fun w => I3Cmd.mk w output))
      | none =>
        match m.order with
        | some o => some [I3Cmd.mk o output]
        | none => none
    let restCmds ← generate_i3_commands rest
    return cmds ++ restCmds

/-! ### Helper lemmas -/

theorem alGet_alSet_self (res : List (Option String × Mon)) (k : Option String) (v : Mon) :
    alGet (alSet res k v) k = some v := by
  induction res with
  | nil => simp [alSet, alGet]
  | cons p rest ih =>
    by_cases h : p.1 == k
    · simp [alSet, alGet, h]
    · simpa [alSet, alGet, h] using ih

theorem alGet_cons (p : Option String × Mon) (rest : List (Option String × Mon))
    (k : Option String) :
    alGet (p :: rest) k = if p.1 == k then some p.2 else alGet rest k := by
  by_cases h : p.1 == k <;> simp [alGet, List.find?, h]

theorem alGet_alSet_isSome (res : List (Option String × Mon)) (k k' : Option String) (v : Mon)
    (h : (alGet res k').isSome) : (alGet (alSet res k v) k').isSome := by
  induction res with
  | nil => simp [alGet] at h
  | cons p rest ih =>
    rw [alGet_cons] at h
    by_cases hk : p.1 == k
    · rw [show alSet (p :: rest) k v = (k, v) :: rest by simp [alSet, hk], alGet_cons]
      by_cases hk' : (k == k')
      · simp [hk']
      · have hpk' : (p.1 == k') = false := by
          have hk2 : p.1 = k := by simpa using hk
          rw [hk2]; simpa using hk'
        simp only [hk', if_false]
        simpa [hpk'] using h
    · rw [show alSet (p :: rest) k v = p :: alSet rest k v by simp [alSet, hk], alGet_cons]
      by_cases hk' : p.1 == k'
      · simp [hk']
      · simp only [hk', if_false]
        exact ih (by simpa [hk'] using h)

theorem mem_setInsert_self (l : List String) (x : String) : x ∈ setInsert l x := by
  by_cases h : x ∈ l <;> simp [setInsert, h]

theorem mem_setInsert_of_mem (l : List String) (x y : String) (h : y ∈ l) :
    y ∈ setInsert l x := by
  by_cases hx : x ∈ l <;> simp [setInsert, hx, h]

/-! ### Claim theorems -/

/-- C7: for a monitor whose resolution string splits on `x` into an
unrotated width `w` and height `h`, rotation `left` or `right` swaps the
axes — the effective horizontal extent is `h` and the vertical extent is
`w` — while an absent or `normal` rotation keeps `w` and `h` unchanged. -/
theorem rotation_axis_swap (m : Mon) (rs : String) (w h : Nat)
    (hres : m.resolution = some rs)
    (hw : ((splitOnX rs.toList).get? 0).bind parseNatDigits = some w)
    (hh : ((splitOnX rs.toList).get? 1).bind parseNatDigits = some h) :
    ((m.rotate = some "left" ∨ m.rotate = some "right") →
      get_x_resolution m = some h ∧ get_y_resolution m = some w) ∧
    ((m.rotate = none ∨ m.rotate = some "normal") →
      get_x_resolution m = some w ∧ get_y_resolution m = some h) := by
  constructor
  · intro hrot
    have hr : is_rotated m = true := by
      rcases hrot with h1 | h1 <;> simp [is_rotated, h1]
    simp [get_x_resolution, get_y_resolution, hres, hr]
    exact ⟨by simpa using hh, by simpa using hw⟩
  · intro hrot
    have hr : is_rotated m = false := by
      rcases hrot with h1 | h1 <;> simp [is_rotated, h1]
    simp [get_x_resolution, get_y_resolution, hres, hr]
    exact ⟨by simpa using hw, by simpa using hh⟩

/-- Witness for C7 at the spec's example: `1920x1080` rotated `left`
contributes horizontal extent 1080 and vertical extent 1920. -/
theorem rotation_axis_swap_witness :
    get_x_resolution { resolution := some "1920x1080", rotate := some "left" } = some 1080 ∧
    get_y_resolution { resolution := some "1920x1080", rotate := some "left" } = some 1920 :=
  (rotation_axis_swap { resolution := some "1920x1080", rotate := some "left" }
    "1920x1080" 1920 1080 rfl (by decide) (by decide)).1 (Or.inl rfl)

/-- C6 (per scanning step): when the tracked identity has an entry `mon` in
the result mapping and a mode line is processed, a line whose remainder is
flagged `+preferred` overwrites the recorded resolution unconditionally,
while a plain mode line records its resolution only if none is present
(first seen wins). -/
theorem resolution_line_preferred_overwrites (s : PState) (line : String)
    (v rest : List Char) (mon : Mon)
    (hmode : s.mode = .scanning)
    (hnedid : lineTrim line ≠ "EDID:".toList)
    (hnh : isHeaderLine line = false)
    (hml : modeLine line.toList = some (v, rest))
    (hentry : alGet s.res s.identifier = some mon) :
    (hasPreferred rest = true →
      ∃ s', pstep s line = .ok s' ∧
        alGet s'.res s.identifier = some { mon with resolution := some (String.mk v) }) ∧
    (hasPreferred rest = false →
      ∃ s', pstep s line = .ok s' ∧
        alGet s'.res s.identifier =
          some { mon with resolution := some (mon.resolution.getD (String.mk v)) }) := by
  have hnh2 : ¬ isHeaderLine line = true := by simp [hnh]
  constructor
  · intro hp
    refine ⟨{ s with res := alSet s.res s.identifier { mon with resolution := some (String.mk v) } }, ?_, ?_⟩
    · simp only [pstep, hmode]
      rw [if_neg hnedid, if_neg hnh2, hml]
      simp [hentry, hp]
    · exact alGet_alSet_self s.res s.identifier _
  · intro hp
    cases hmr : mon.resolution with
    | none =>
      refine ⟨{ s with res := alSet s.res s.identifier { mon with resolution := some (String.mk v) } }, ?_, ?_⟩
      · simp only [pstep, hmode]
        rw [if_neg hnedid, if_neg hnh2, hml]
        simp [hentry, hp, hmr]
      · simpa [hmr] using alGet_alSet_self s.res s.identifier
          { mon with resolution := some (String.mk v) }
    | some r =>
      refine ⟨s, ?_, ?_⟩
      · simp only [pstep, hmode]
        rw [if_neg hnedid, if_neg hnh2, hml]
        simp [hentry, hp, hmr]
      · rw [hentry]
        cases mon
        simp_all

/-- Witness for C6: a concrete scanning state holding a recorded
resolution, hit first by a preferred mode line (overwrites) and, in the
first-seen-wins reading, by a plain mode line (keeps the old value). -/
theorem resolution_line_preferred_overwrites_witness :
    ∃ s', pstep { mode := .scanning, identifier := some "DP-1", res := [(some "DP-1", { edid := some "E", resolution := some "1280x720" })] } "   1920x1080 (0x1e) 533.250MHz +HSync -VSync +preferred" = .ok s' ∧
      alGet s'.res (some "DP-1") =
        some { edid := some "E", resolution := some "1920x1080" } := by
  have := (resolution_line_preferred_overwrites
    { mode := .scanning, identifier := some "DP-1", res := [(some "DP-1", { edid := some "E", resolution := some "1280x720" })] }
    "   1920x1080 (0x1e) 533.250MHz +HSync -VSync +preferred"
    "1920x1080".toList " 533.250MHz +HSync -VSync +preferred".toList
    { edid := some "E", resolution := some "1280x720" }
    rfl (by decide) (by decide) (by decide) (by decide)).1 (by decide)
  simpa using this

/-- C3 (amended): characterization of the only failure of the parser — a
scanning step fails precisely when the line is a mode line (neither the
descriptor marker nor a header) while the tracked identity has no entry in
the result mapping (`res[identifier]` raises `KeyError`); every other line
is processed without error. -/
theorem pstep_error_characterization (s : PState) (line : String) :
    pstep s line = .error () ↔
      (s.mode = .scanning ∧ lineTrim line ≠ "EDID:".toList ∧ isHeaderLine line = false ∧
        (∃ v rest, modeLine line.toList = some (v, rest)) ∧
        alGet s.res s.identifier = none) := by
  cases hm : s.mode with
  | munching =>
    constructor
    · intro h
      simp only [pstep, hm] at h
      split at h <;> simp at h
    · rintro ⟨h1, -⟩
      simp [hm] at h1
  | scanning =>
    constructor
    · intro h
      simp only [pstep, hm] at h
      split at h
      next he => cases h
      next he =>
        split at h
        next hh => cases h
        next hh =>
          split at h
          next v rest hml =>
            split at h
            next hget =>
              exact ⟨rfl, he, by simpa using hh, ⟨v, rest, hml⟩, hget⟩
            next mon hget =>
              split at h
              next hp => cases h
              next hp =>
                split at h
                next hmr => cases h
                next hmr => cases h
          next hml => cases h
    · rintro ⟨-, he, hh, ⟨v, rest, hml⟩, hget⟩
      have hml2 : modeLine line.data = some (v, rest) := hml
      simp only [pstep, hm]
      rw [if_neg he, if_neg (by simp [hh])]
      simp [hml2, hget]

/-- Accounting invariant of the parser loop: every identity ever assigned
by a header line is the currently tracked one, or has an entry in the
result mapping, or is in the disabled set. -/
def accounted (s : PState) : Prop :=
  ∀ id0 ∈ s.introduced,
    some id0 = s.identifier ∨ (alGet s.res (some id0)).isSome ∨ id0 ∈ s.disabled

theorem pstep_accounted (s : PState) (line : String) (s' : PState)
    (h : pstep s line = .ok s') (hs : accounted s) : accounted s' := by
  unfold accounted at hs ⊢
  simp only [pstep] at h
  split at h
  · -- scanning
    split at h
    · -- EDID marker
      injection h with h2
      subst h2
      simpa using hs
    · split at h
      · -- header line
        injection h with h2
        subst h2
        intro id0 hid
        simp only [List.mem_append, List.mem_singleton] at hid
        rcases hid with hid | rfl
        · rcases hs id0 hid with hcur | hres | hdis
          · cases hprev : s.identifier with
            | none => rw [hprev] at hcur; cases hcur
            | some prev =>
              rw [hprev] at hcur
              injection hcur with hcur
              subst hcur
              by_cases hn : (alGet s.res (some id0)).isNone
              · right; right
                simp only [hprev, hn, if_true]
                exact mem_setInsert_self s.disabled id0
              · right; left
                cases halg : alGet s.res (some id0) with
                | none => rw [halg] at hn; simp at hn
                | some m => simp
          · right; left; simpa using hres
          · right; right
            cases hprev : s.identifier with
            | none => simpa using hdis
            | some prev =>
              by_cases hn : (alGet s.res (some prev)).isNone
              · simp only [hprev, hn, if_true]
                exact mem_setInsert_of_mem s.disabled prev id0 hdis
              · simp only [hprev, hn, if_false]
                exact hdis
        · exact Or.inl rfl
      · split at h
        · split at h
          · cases h
          · -- preferred / plain branches
            split at h
            · injection h with h2
              subst h2
              intro id0 hid
              rcases hs id0 hid with hcur | hres | hdis
              · exact Or.inl hcur
              · exact Or.inr (Or.inl (alGet_alSet_isSome _ _ _ _ hres))
              · exact Or.inr (Or.inr hdis)
            · split at h
              · injection h with h2
                subst h2
                intro id0 hid
                rcases hs id0 hid with hcur | hres | hdis
                · exact Or.inl hcur
                · exact Or.inr (Or.inl (alGet_alSet_isSome _ _ _ _ hres))
                · exact Or.inr (Or.inr hdis)
              · injection h with h2
                subst h2
                exact hs
        · injection h with h2
          subst h2
          exact hs
  · -- munching
    split at h
    · injection h with h2
      subst h2
      intro id0 hid
      rcases hs id0 hid with hcur | hres | hdis
      · exact Or.inl hcur
      · exact Or.inr (Or.inl (alGet_alSet_isSome _ _ _ _ hres))
      · exact Or.inr (Or.inr hdis)
    · injection h with h2
      subst h2
      simpa using hs

theorem parse_lines_accounted (lines : List String) (s0 s : PState)
    (h : parse_lines s0 lines = .ok s) (hs : accounted s0) : accounted s := by
  induction lines generalizing s0 with
  | nil =>
    simp only [parse_lines] at h
    injection h with h2
    subst h2
    exact hs
  | cons line rest ih =>
    simp only [parse_lines] at h
    cases hp : pstep s0 line with
    | error e => rw [hp] at h; cases h
    | ok s1 =>
      rw [hp] at h
      exact ih s1 (by simpa using h) (pstep_accounted s0 line s1 hp hs)

/-- C4 (amended): on a successful parse, every identity introduced by a
header line appears in the result mapping or in the disabled set — except
possibly the finally tracked identity, which can appear in neither (and an
identity heading several report sections can appear in both). -/
theorem parse_introduced_in_res_or_disabled (lines : List String) (s : PState)
    (h : parse_lines initState lines = .ok s) :
    ∀ id0 ∈ s.introduced,
      some id0 = s.identifier ∨ (alGet s.res (some id0)).isSome ∨ id0 ∈ s.disabled := by
  refine parse_lines_accounted lines initState s h ?_
  intro id0 hid
  simp [initState] at hid

/-- Sample report used by the C4 witness. -/
def sampleLines : List String :=
  ["DP-1 connected", "EDID:", "00ff", "prop: 1", "HDMI-0 disconnected", "DVI-0 disconnected"]

/-- Final parser state reached on `sampleLines`. -/
def sampleFinal : PState :=
  { mode := .scanning, identifier := some "DVI-0",
    res := [(some "DP-1", { edid := some "00ff" })], disabled := ["HDMI-0"],
    tmp_res := [], introduced := ["DP-1", "HDMI-0", "DVI-0"] }

/-- Witness for C4: a concrete report in which the identity `HDMI-0` is
introduced by a header line and duly lands in one of the two outputs. -/
theorem parse_introduced_in_res_or_disabled_witness :
    parse_lines initState sampleLines = .ok sampleFinal ∧
      (some "HDMI-0" = sampleFinal.identifier ∨
        (alGet sampleFinal.res (some "HDMI-0")).isSome ∨
        "HDMI-0" ∈ sampleFinal.disabled) :=
  ⟨by rfl,
   parse_introduced_in_res_or_disabled sampleLines sampleFinal (by rfl) "HDMI-0" (by decide)⟩

/-- Counterexample for C4: a report consisting of a single header line; the
identity `DP-1` is introduced by a header line yet the parser returns with
`DP-1` neither in the result mapping nor in the disabled set. -/
theorem parse_trailing_header_in_neither_output :
    (parse_lines initState ["DP-1 connected"]).toOption.map
        (fun s => (s.introduced, s.res, s.disabled)) =
      some (["DP-1"], [], []) := by
  rfl

/-- Counterexample for C3: the parser raises (`KeyError`) on this malformed
report, in which a preferred mode line appears before the tracked identity
has accumulated a descriptor entry. -/
theorem parse_premature_mode_line_raises :
    parse_xrandr_output ["DP-1 connected",
      "   1920x1080 (0x1e) 533.250MHz +HSync -VSync +preferred"] = .error () := by
  rfl

/-! ### Lemmas for the command builder -/

theorem optMap_length (f : α → Option β) (l : List α) (bs : List β)
    (h : optMap f l = some bs) : bs.length = l.length := by
  induction l generalizing bs with
  | nil =>
    simp only [optMap] at h
    injection h with h2
    subst h2
    rfl
  | cons a as ih =>
    simp only [optMap] at h
    cases hf : f a with
    | none => rw [hf] at h; simp at h
    | some b =>
      rw [hf] at h
      cases hrest : optMap f as with
      | none => rw [hrest] at h; simp at h
      | some bs0 =>
        rw [hrest] at h
        have h2 : bs = b :: bs0 := by simpa using h.symm
        subst h2
        simp [ih bs0 hrest]

theorem accumulateFrom_length (acc : Nat) (xs : List Nat) :
    (accumulateFrom acc xs).length = xs.length := by
  induction xs generalizing acc with
  | nil => rfl
  | cons x rest ih => simp [accumulateFrom, ih]

theorem accumulateFrom_get? (xs : List Nat) (acc : Nat) (i : Nat) (h : i < xs.length) :
    (accumulateFrom acc xs).get? i = some (acc + (xs.take (i + 1)).sum) := by
  induction xs generalizing acc i with
  | nil => simp at h
  | cons x rest ih =>
    cases i with
    | zero => simp [accumulateFrom]
    | succ n =>
      have := ih (acc + x) n (by simpa using h)
      simp only [accumulateFrom, List.get?]
      rw [this]
      congr 1
      simp only [List.take, List.sum_cons]
      omega

theorem offsets_get? (xs : List Nat) (i : Nat) (h : i ≤ xs.length) :
    (0 :: accumulateFrom 0 xs).get? i = some ((xs.take i).sum) := by
  cases i with
  | zero => simp
  | succ n =>
    simp only [List.get?]
    rw [accumulateFrom_get? xs 0 n (by omega)]
    simp

theorem maxList_eq_foldl (ys : List Nat) (h : ys ≠ []) :
    maxList ys = some (ys.foldl Nat.max 0) := by
  cases ys with
  | nil => cases h rfl
  | cons y t => simp [maxList, List.foldl_cons, Nat.zero_max]

theorem le_foldl_max (ys : List Nat) (a : Nat) : a ≤ ys.foldl Nat.max a := by
  induction ys generalizing a with
  | nil => simp
  | cons y t ih => exact le_trans (Nat.le_max_left a y) (ih (Nat.max a y))

theorem mem_le_foldl_max (ys : List Nat) (a : Nat) : ∀ y ∈ ys, y ≤ ys.foldl Nat.max a := by
  induction ys generalizing a with
  | nil => simp
  | cons x t ih =>
    intro y hy
    rcases List.mem_cons.mp hy with rfl | hy
    · exact le_trans (Nat.le_max_right a y) (le_foldl_max t _)
    · exact ih (Nat.max a x) y hy

theorem foldl_max_mem (ys : List Nat) (a : Nat) :
    ys.foldl Nat.max a = a ∨ ys.foldl Nat.max a ∈ ys := by
  induction ys generalizing a with
  | nil => exact Or.inl rfl
  | cons x t ih =>
    rcases ih (Nat.max a x) with h | h
    · rw [List.foldl_cons, h]
      rcases Nat.le_total a x with hax | hax
      · right
        have hmx : Nat.max a x = x := Nat.max_eq_right hax
        rw [hmx]
        exact List.mem_cons_self x t
      · left
        have hmx : Nat.max a x = a := Nat.max_eq_left hax
        rw [hmx]
    · right
      rw [List.foldl_cons]
      exact List.mem_cons_of_mem x h

theorem monitor_info_cons (p : String × Mon) (t : List (String × Mon)) (r : String)
    (rt : List String) (o : Nat) (ot : List Nat) :
    monitor_info (p :: t) (r :: rt) (o :: ot) =
      ⟨p.1, r, o, p.2.rotate, p.2.primary⟩ :: monitor_info t rt ot := by
  simp [monitor_info]

theorem monitor_info_map_identifier (oms : List (String × Mon)) (rs : List String)
    (offsets : List Nat) (hr : rs.length = oms.length) (ho : oms.length ≤ offsets.length) :
    (monitor_info oms rs offsets).map XInfo.identifier = oms.map Prod.fst := by
  induction oms generalizing rs offsets with
  | nil => simp [monitor_info]
  | cons p t ih =>
    cases rs with
    | nil => simp at hr
    | cons r rt =>
      cases offsets with
      | nil => simp at ho
      | cons o ot =>
        rw [monitor_info_cons, List.map_cons, List.map_cons]
        congr 1
        exact ih rt ot (by simpa using hr) (by simpa using ho)

theorem monitor_info_map_offset (oms : List (String × Mon)) (rs : List String)
    (offsets : List Nat) (hr : rs.length = oms.length) (ho : oms.length ≤ offsets.length) :
    (monitor_info oms rs offsets).map XInfo.offset = offsets.take oms.length := by
  induction oms generalizing rs offsets with
  | nil => simp [monitor_info]
  | cons p t ih =>
    cases rs with
    | nil => simp at hr
    | cons r rt =>
      cases offsets with
      | nil => simp at ho
      | cons o ot =>
        rw [monitor_info_cons, List.map_cons, List.length_cons, List.take_succ_cons]
        congr 1
        exact ih rt ot (by simpa using hr) (by simpa using ho)

/-- C1: on a non-empty ordered monitor list the generated command carries a
framebuffer string made of the sum of the effective horizontal extents and
the fold-maximum of the effective vertical extents (which is an upper bound
of, and attained by, those extents), and the offset assigned to monitor `i`
in the `monitor_info` list is the exclusive prefix sum of the effective
horizontal extents of the monitors before it. -/
theorem generate_xrandr_offsets_and_fb (oms : List (String × Mon)) (d : List String)
    (fp : Bool) (xs ys : List Nat) (rs : List String)
    (hne : oms ≠ [])
    (hx : optMap (fun p => get_x_resolution p.2) oms = some xs)
    (hy : optMap (fun p => get_y_resolution p.2) oms = some ys)
    (hr : optMap (fun p => p.2.resolution) oms = some rs) :
    generate_xrandr_command oms d fp =
      some (["xrandr", "--fb", fbString xs.sum (ys.foldl Nat.max 0)] ++
        (monitor_info oms rs (0 :: accumulateFrom 0 xs)).flatMap (output_clause fp) ++
        d.flatMap disable_clause) ∧
    (∀ i, i ≤ xs.length → (0 :: accumulateFrom 0 xs).get? i = some ((xs.take i).sum)) ∧
    (monitor_info oms rs (0 :: accumulateFrom 0 xs)).map XInfo.offset =
      (0 :: accumulateFrom 0 xs).take oms.length ∧
    (monitor_info oms rs (0 :: accumulateFrom 0 xs)).map XInfo.identifier = oms.map Prod.fst ∧
    (∀ y ∈ ys, y ≤ ys.foldl Nat.max 0) ∧ ys.foldl Nat.max 0 ∈ ys := by
  have hyslen : ys.length = oms.length := optMap_length _ oms ys hy
  have hysne : ys ≠ [] := by
    intro hcon
    rw [hcon] at hyslen
    exact hne (List.eq_nil_of_length_eq_zero hyslen.symm)
  have hxlen : xs.length = oms.length := optMap_length _ oms xs hx
  have hrlen : rs.length = oms.length := optMap_length _ oms rs hr
  refine ⟨?_, ?_, ?_, ?_, ?_, ?_⟩
  · simp [generate_xrandr_command, hx, hy, hr, maxList_eq_foldl ys hysne]
  · intro i hi
    exact offsets_get? xs i hi
  · refine monitor_info_map_offset oms rs _ hrlen ?_
    simp [accumulateFrom_length, hxlen]
  · refine monitor_info_map_identifier oms rs _ hrlen ?_
    simp [accumulateFrom_length, hxlen]
  · exact mem_le_foldl_max ys 0
  · rcases foldl_max_mem ys 0 with h0 | hmem
    · cases ys with
      | nil => cases hysne rfl
      | cons y t =>
        have hy0 : y ≤ 0 := h0 ▸ mem_le_foldl_max (y :: t) 0 y (List.mem_cons_self y t)
        rw [h0]
        have : y = 0 := Nat.le_antisymm hy0 (Nat.zero_le y)
        rw [← this]
        exact List.mem_cons_self y t
    · exact hmem

/-- Ordered monitor list used by the C1 and C8 witnesses. -/
def c1oms : List (String × Mon) :=
  [("DP-1", { resolution := some "1920x1200" }),
   ("DP-2", { resolution := some "1920x1080", rotate := some "left" })]

/-- Witness for C1 on two monitors (the second one rotated): framebuffer
`3000x1920`, offsets `0` and `1920`. -/
theorem generate_xrandr_offsets_and_fb_witness :
    generate_xrandr_command c1oms ["HDMI-0"] false =
      some (["xrandr", "--fb",
          fbString ([1920, 1080] : List Nat).sum (([1200, 1920] : List Nat).foldl Nat.max 0)] ++
        (monitor_info c1oms ["1920x1200", "1920x1080"]
          (0 :: accumulateFrom 0 [1920, 1080])).flatMap (output_clause false) ++
        ["HDMI-0"].flatMap disable_clause) :=
  (generate_xrandr_offsets_and_fb c1oms ["HDMI-0"] false [1920, 1080] [1200, 1920]
    ["1920x1200", "1920x1080"] (by decide) rfl rfl rfl).1

/-- C8 (amended): when the ordered list is non-empty with parseable
resolutions and no identity of the disabled set occurs among the ordered
monitors, the command is the enabled-output clauses followed by exactly one
disable clause per disabled identity (the disabled list, modelling a set,
is duplicate-free), and no disabled identity occurs in the `monitor_info`
list that generates the enabled-output clauses. -/
theorem generate_xrandr_disable_clauses (oms : List (String × Mon)) (d : List String)
    (fp : Bool) (xs ys : List Nat) (rs : List String)
    (hne : oms ≠ [])
    (hx : optMap (fun p => get_x_resolution p.2) oms = some xs)
    (hy : optMap (fun p => get_y_resolution p.2) oms = some ys)
    (hr : optMap (fun p => p.2.resolution) oms = some rs)
    (hdn : d.Nodup)
    (hdisj : ∀ id0 ∈ d, id0 ∉ oms.map Prod.fst) :
    generate_xrandr_command oms d fp =
      some ((["xrandr", "--fb", fbString xs.sum (ys.foldl Nat.max 0)] ++
        (monitor_info oms rs (0 :: accumulateFrom 0 xs)).flatMap (output_clause fp)) ++
        d.flatMap disable_clause) ∧
    (∀ id0 ∈ d, ∀ e ∈ monitor_info oms rs (0 :: accumulateFrom 0 xs),
      e.identifier ≠ id0) := by
  have hyslen : ys.length = oms.length := optMap_length _ oms ys hy
  have hysne : ys ≠ [] := by
    intro hcon
    rw [hcon] at hyslen
    exact hne (List.eq_nil_of_length_eq_zero hyslen.symm)
  have hxlen : xs.length = oms.length := optMap_length _ oms xs hx
  have hrlen : rs.length = oms.length := optMap_length _ oms rs hr
  constructor
  · simp [generate_xrandr_command, hx, hy, hr, maxList_eq_foldl ys hysne]
  · intro id0 hid e he hcon
    apply hdisj id0 hid
    have hmem : e.identifier ∈
        (monitor_info oms rs (0 :: accumulateFrom 0 xs)).map XInfo.identifier :=
      List.mem_map_of_mem XInfo.identifier he
    rw [monitor_info_map_identifier oms rs _ hrlen
      (by simp [accumulateFrom_length, hxlen])] at hmem
    exact hcon ▸ hmem

/-- Witness for C8 at a concrete layout with a disabled `HDMI-0`. -/
theorem generate_xrandr_disable_clauses_witness :
    (generate_xrandr_command c1oms ["HDMI-0"] false =
      some ((["xrandr", "--fb",
          fbString ([1920, 1080] : List Nat).sum (([1200, 1920] : List Nat).foldl Nat.max 0)] ++
        (monitor_info c1oms ["1920x1200", "1920x1080"]
          (0 :: accumulateFrom 0 [1920, 1080])).flatMap (output_clause false)) ++
        ["HDMI-0"].flatMap disable_clause)) ∧
    (∀ id0 ∈ ["HDMI-0"], ∀ e ∈ monitor_info c1oms ["1920x1200", "1920x1080"]
        (0 :: accumulateFrom 0 [1920, 1080]), e.identifier ≠ id0) :=
  generate_xrandr_disable_clauses c1oms ["HDMI-0"] false [1920, 1080] [1200, 1920]
    ["1920x1200", "1920x1080"] (by decide) rfl rfl rfl (by decide) (by decide)

/-- Counterexample for C8: an identity that is both in the ordered monitor
list and in the disabled set receives a mode/position clause in the
enabled-output portion of the command (and a disable clause after it). -/
theorem disabled_identity_gets_mode_clause :
    generate_xrandr_command [("DP-1", { resolution := some "1920x1080" })] ["DP-1"] false =
      some ["xrandr", "--fb", "1920x1080", "--output", "DP-1", "--mode", "1920x1080",
        "--pos", "0x0", "--output", "DP-1", "--off"] := by
  rfl

/-! ### Lemmas for the i3 command builder -/

theorem i3cmd_mk_inj (out : String) :
    Function.Injective (fun w : Int => I3Cmd.mk w out) := by
  intro a b hab
  simpa using congrArg I3Cmd.workspace hab

/-- C10: every command generated for the window manager targets an output
of the ordered list; a monitor with an explicit workspace list receives one
command per entry of that list (counted with multiplicity), and a monitor
without one receives exactly one command, numbered by its order key. -/
theorem generate_i3_commands_counts (oms : List (String × Mon)) (cmds : List I3Cmd)
    (hk : (oms.map Prod.fst).Nodup)
    (h : generate_i3_commands oms = some cmds) :
    (∀ p ∈ oms, ∀ ws, p.2.i3_workspaces = some ws →
      ∀ w : Int, cmds.count ⟨w, p.1⟩ = ws.count w) ∧
    (∀ p ∈ oms, p.2.i3_workspaces = none → ∀ o : Int, p.2.order = some o →
      ∀ w : Int, cmds.count ⟨w, p.1⟩ = if w = o then 1 else 0) ∧
    (∀ c ∈ cmds, c.output ∈ oms.map Prod.fst) := by
  induction oms generalizing cmds with
  | nil =>
    simp only [generate_i3_commands] at h
    injection h with h2
    subst h2
    exact ⟨by simp, by simp, by simp⟩
  | cons q t ih =>
    obtain ⟨out, m⟩ := q
    have hout : out ∉ t.map Prod.fst := by
      have := hk
      simp only [List.map_cons, List.nodup_cons] at this
      exact this.1
    have hkt : (t.map Prod.fst).Nodup := by
      have := hk
      simp only [List.map_cons, List.nodup_cons] at this
      exact this.2
    simp only [generate_i3_commands] at h
    cases hrest : generate_i3_commands t with
    | none =>
      rw [hrest] at h
      cases hws : m.i3_workspaces with
      | some ws => rw [hws] at h; simp at h
      | none =>
        rw [hws] at h
        cases hord : m.order with
        | none => rw [hord] at h; simp at h
        | some o => rw [hord] at h; simp at h
    | some restC =>
      rw [hrest] at h
      obtain ⟨ihws, ihord, ihout⟩ := ih restC hkt hrest
      have hrest0 : ∀ w : Int, restC.count ⟨w, out⟩ = 0 := by
        intro w
        refine List.count_eq_zero.mpr ?_
        intro hmem
        exact hout (ihout ⟨w, out⟩ hmem)
      cases hws : m.i3_workspaces with
      | some ws =>
        rw [hws] at h
        have h2 : cmds = ws.map (fun w => I3Cmd.mk w out) ++ restC := by
          simpa using h.symm
        subst h2
        refine ⟨?_, ?_, ?_⟩
        · intro p hp ws0 hws0 w
          rcases List.mem_cons.mp hp with rfl | hpt
          · simp only at hws0
            rw [hws] at hws0
            injection hws0 with hws0
            subst hws0
            rw [List.count_append, hrest0 w, Nat.add_zero,
              List.count_map_of_injective ws _ (i3cmd_mk_inj out) w]
          · have hp1 : p.1 ≠ out := by
              intro hcon
              exact hout (hcon ▸ List.mem_map_of_mem Prod.fst hpt)
            rw [List.count_append, ihws p hpt ws0 hws0 w, Nat.add_comm]
            have : (ws.map (fun w => I3Cmd.mk w out)).count ⟨w, p.1⟩ = 0 := by
              refine List.count_eq_zero.mpr ?_
              intro hmem
              rcases List.mem_map.mp hmem with ⟨w0, -, hw0⟩
              exact hp1 (by simpa using (congrArg I3Cmd.output hw0).symm)
            rw [this, Nat.add_zero]
        · intro p hp hnone o hord w
          rcases List.mem_cons.mp hp with rfl | hpt
          · simp only at hnone
            rw [hws] at hnone
            cases hnone
          · have hp1 : p.1 ≠ out := by
              intro hcon
              exact hout (hcon ▸ List.mem_map_of_mem Prod.fst hpt)
            rw [List.count_append, ihord p hpt hnone o hord w, Nat.add_comm]
            have : (ws.map (fun w => I3Cmd.mk w out)).count ⟨w, p.1⟩ = 0 := by
              refine List.count_eq_zero.mpr ?_
              intro hmem
              rcases List.mem_map.mp hmem with ⟨w0, -, hw0⟩
              exact hp1 (by simpa using (congrArg I3Cmd.output hw0).symm)
            rw [this, Nat.add_zero]
        · intro c hc
          rcases List.mem_append.mp hc with hch | hcr
          · rcases List.mem_map.mp hch with ⟨w0, -, hw0⟩
            simp [← hw0]
          · simp only [List.map_cons]
            exact List.mem_cons_of_mem out (ihout c hcr)
      | none =>
        rw [hws] at h
        cases hord : m.order with
        | none => rw [hord] at h; simp at h
        | some o =>
          rw [hord] at h
          have h2 : cmds = [I3Cmd.mk o out] ++ restC := by
            simpa using h.symm
          subst h2
          refine ⟨?_, ?_, ?_⟩
          · intro p hp ws0 hws0 w
            rcases List.mem_cons.mp hp with rfl | hpt
            · simp only at hws0
              rw [hws] at hws0
              cases hws0
            · have hp1 : p.1 ≠ out := by
                intro hcon
                exact hout (hcon ▸ List.mem_map_of_mem Prod.fst hpt)
              rw [List.count_append, ihws p hpt ws0 hws0 w, Nat.add_comm]
              have : ([I3Cmd.mk o out] : List I3Cmd).count ⟨w, p.1⟩ = 0 := by
                refine List.count_eq_zero.mpr ?_
                intro hmem
                rcases List.mem_singleton.mp hmem with hw0
                exact hp1 (by simpa using congrArg I3Cmd.output hw0)
              rw [this, Nat.add_zero]
          · intro p hp hnone o0 hord0 w
            rcases List.mem_cons.mp hp with rfl | hpt
            · simp only at hord0
              rw [hord] at hord0
              injection hord0 with hord0
              subst hord0
              rw [List.count_append, hrest0 w, Nat.add_zero]
              simp only [List.count_cons, List.count_nil, I3Cmd.mk.injEq]
              rcases eq_or_ne w o with rfl | hwo
              · simp
              · simp [hwo, Ne.symm hwo]
            · have hp1 : p.1 ≠ out := by
                intro hcon
                exact hout (hcon ▸ List.mem_map_of_mem Prod.fst hpt)
              rw [List.count_append, ihord p hpt hnone o0 hord0 w, Nat.add_comm]
              have : ([I3Cmd.mk o out] : List I3Cmd).count ⟨w, p.1⟩ = 0 := by
                refine List.count_eq_zero.mpr ?_
                intro hmem
                rcases List.mem_singleton.mp hmem with hw0
                exact hp1 (by simpa using congrArg I3Cmd.output hw0)
              rw [this, Nat.add_zero]
          · intro c hc
            rcases List.mem_append.mp hc with hch | hcr
            · rcases List.mem_singleton.mp hch with hw0
              simp [hw0]
            · simp only [List.map_cons]
              exact List.mem_cons_of_mem out (ihout c hcr)

/-- Ordered monitor list used by the C10 witness. -/
def c10oms : List (String × Mon) :=
  [("DP-1", { order := some 1, i3_workspaces := some [3, 4] }),
   ("DP-2", { order := some 2 })]

/-- Witness for C10: the monitor with workspace list `[3, 4]` gets one
command per listed workspace, the monitor without a list gets exactly one
command numbered by its order key, and all commands target listed outputs. -/
theorem generate_i3_commands_counts_witness :
    (∀ p ∈ c10oms, ∀ ws, p.2.i3_workspaces = some ws →
      ∀ w : Int, ([⟨3, "DP-1"⟩, ⟨4, "DP-1"⟩, ⟨2, "DP-2"⟩] : List I3Cmd).count ⟨w, p.1⟩ =
        ws.count w) ∧
    (∀ p ∈ c10oms, p.2.i3_workspaces = none → ∀ o : Int, p.2.order = some o →
      ∀ w : Int, ([⟨3, "DP-1"⟩, ⟨4, "DP-1"⟩, ⟨2, "DP-2"⟩] : List I3Cmd).count ⟨w, p.1⟩ =
        if w = o then 1 else 0) ∧
    (∀ c ∈ ([⟨3, "DP-1"⟩, ⟨4, "DP-1"⟩, ⟨2, "DP-2"⟩] : List I3Cmd),
      c.output ∈ c10oms.map Prod.fst) :=
  generate_i3_commands_counts c10oms [⟨3, "DP-1"⟩, ⟨4, "DP-1"⟩, ⟨2, "DP-2"⟩]
    (by decide) rfl

/-! ### Lemmas for the monitor resolver -/

/-- Forgets the primary annotation of a configured monitor. -/
def strip_primary (p : String × Mon) : String × Mon :=
  (p.1, { p.2 with primary := none })

/-- Effect of one iteration of the matching loop on the monitors dict. -/
def merge_entry (config : List (String × Mon)) (p : String × Mon) : String × Mon :=
  match p.2.edid with
  | some e =>
    match alookup config e with
    | some c => (p.1, update_mon p.2 c)
    | none => p
  | none => p

/-- Contribution of one iteration of the matching loop to `selected_monitors`. -/
def select_entry (config : List (String × Mon)) (p : String × Mon) :
    Option (String × Mon) :=
  match p.2.edid with
  | some e =>
    match alookup config e with
    | some c => some (p.1, update_mon p.2 c)
    | none => none
  | none => none

theorem merge_entry_fst (config : List (String × Mon)) (p : String × Mon) :
    (merge_entry config p).1 = p.1 := by
  unfold merge_entry
  split
  · split
    · rfl
    · rfl
  · rfl

theorem set_get?_self (l : List α) (i : Nat) (a : α) (h : l.get? i = some a) :
    l.set i a = l := by
  induction l generalizing i with
  | nil => simp at h
  | cons x xs ih =>
    cases i with
    | zero =>
      simp only [List.get?] at h
      injection h with h2
      simp [List.set, h2]
    | succ n =>
      simp only [List.get?] at h
      simp [List.set, ih n h]

theorem optOrders_length (l : List (String × Mon)) (os : List Int)
    (h : optOrders l = some os) : os.length = l.length := by
  induction l generalizing os with
  | nil =>
    simp only [optOrders] at h
    injection h with h2
    subst h2
    rfl
  | cons p rest ih =>
    simp only [optOrders] at h
    cases ho : p.2.order with
    | none => rw [ho] at h; simp at h
    | some o =>
      rw [ho] at h
      cases hrest : optOrders rest with
      | none => rw [hrest] at h; simp at h
      | some os0 =>
        rw [hrest] at h
        have h2 : os = o :: os0 := by simpa using h.symm
        subst h2
        simp [ih os0 hrest]

theorem select_loop_spec (config : List (String × Mon)) (monitors sel ms : List (String × Mon))
    (log : List LogEntry) (h : select_loop config monitors = .ok (sel, ms, log)) :
    ms = monitors.map (merge_entry config) ∧
    sel = monitors.filterMap (select_entry config) := by
  induction monitors generalizing sel ms log with
  | nil =>
    simp only [select_loop] at h
    obtain ⟨h1, h2, h3⟩ : [] = sel ∧ ([] : List (String × Mon)) = ms ∧ ([] : List LogEntry) = log := by
      simpa using h
    subst h1
    subst h2
    simp
  | cons p rest ih =>
    obtain ⟨k, m⟩ := p
    simp only [select_loop] at h
    split at h
    · cases h
    · rename_i e hed
      split at h
      · rename_i hal
        cases hrec : select_loop config rest with
        | error u => rw [hrec] at h; cases h
        | ok triple =>
          obtain ⟨sel0, ms0, log0⟩ := triple
          rw [hrec] at h
          obtain ⟨h1, h2, h3⟩ : sel0 = sel ∧ (k, m) :: ms0 = ms ∧
              LogEntry.unmatched k :: log0 = log := by
            simpa using (show Except.ok (sel0, (k, m) :: ms0, LogEntry.unmatched k :: log0) =
              Except.ok (sel, ms, log) from h)
          subst h1
          subst h2
          obtain ⟨ihm, ihs⟩ := ih sel0 ms0 log0 hrec
          constructor
          · simp only [List.map_cons, merge_entry, hed, hal]
            rw [← ihm]
          · simp only [List.filterMap_cons, select_entry, hed, hal]
            rw [← ihs]
      · rename_i c hal
        cases hrec : select_loop config rest with
        | error u => rw [hrec] at h; cases h
        | ok triple =>
          obtain ⟨sel0, ms0, log0⟩ := triple
          rw [hrec] at h
          obtain ⟨h1, h2, h3⟩ : (k, update_mon m c) :: sel0 = sel ∧
              (k, update_mon m c) :: ms0 = ms ∧ log0 = log := by
            simpa using (show Except.ok ((k, update_mon m c) :: sel0,
              (k, update_mon m c) :: ms0, log0) = Except.ok (sel, ms, log) from h)
          subst h1
          subst h2
          obtain ⟨ihm, ihs⟩ := ih sel0 ms0 log0 hrec
          constructor
          · simp only [List.map_cons, merge_entry, hed, hal]
            rw [← ihm]
          · simp only [List.filterMap_cons, select_entry, hed, hal]
            rw [← ihs]

theorem sorted_monLE_iff_map (l : List (String × Mon)) :
    List.Sorted monLE l ↔ List.Sorted (· ≤ ·) (l.map orderKey) := by
  unfold List.Sorted
  rw [List.pairwise_map]
  exact Iff.rfl

theorem sorted_set_primary (l : List (String × Mon)) (i : Nat) (k : String) (mm : Mon)
    (hget : l.get? i = some (k, mm)) (hs : List.Sorted monLE l) :
    List.Sorted monLE (l.set i (k, { mm with primary := some true })) := by
  rw [sorted_monLE_iff_map] at hs ⊢
  rw [List.map_set]
  have h1 : (l.map orderKey).get? i = some (orderKey (k, mm)) := by
    rw [List.get?_map, hget]
    rfl
  have h2 : orderKey (k, { mm with primary := some true }) = orderKey (k, mm) := rfl
  rw [h2, set_get?_self _ _ _ h1]
  exact hs

theorem map_strip_set_primary (l : List (String × Mon)) (i : Nat) (k : String) (mm : Mon)
    (hget : l.get? i = some (k, mm)) :
    (l.set i (k, { mm with primary := some true })).map strip_primary =
      l.map strip_primary := by
  rw [List.map_set]
  have h1 : (l.map strip_primary).get? i = some (strip_primary (k, mm)) := by
    rw [List.get?_map, hget]
    rfl
  have h2 : strip_primary (k, { mm with primary := some true }) = strip_primary (k, mm) := rfl
  rw [h2, set_get?_self _ _ _ h1]

theorem bindOk (a : α) (f : α → Except Unit β) :
    ((Except.ok a : Except Unit α) >>= f) = f a := rfl

/-- C2: if two matched monitors share an order value the resolver reports
the collision and returns no layout at all (the mutated monitors dict and
the diagnostics are still produced, but `layout` is `none`); with pairwise
distinct order keys it returns the matched monitors sorted by order key
ascending (up to the primary annotation of C5). -/
theorem configure_monitors_order_collision (monitors config : List (String × Mon))
    (sel ms : List (String × Mon)) (log : List LogEntry) (orders : List Int)
    (hk : (monitors.map Prod.fst).Nodup)
    (hsel : select_loop config monitors = .ok (sel, ms, log))
    (horders : optOrders sel = some orders) :
    (¬ orders.Nodup →
      configure_monitors_st monitors config = .ok ⟨none, ms, log ++ [.collision]⟩) ∧
    (orders.Nodup →
      ∃ l, configure_monitors monitors config = some l ∧
        List.Sorted monLE l ∧
        List.Perm (l.map strip_primary) (sel.map strip_primary)) := by
  have hlen : orders.length = sel.length := optOrders_length sel orders horders
  constructor
  · intro hno
    have hcond : sel.length ≠ orders.dedup.length := by
      intro hcon
      apply hno
      have hsub : List.Sublist orders.dedup orders := List.dedup_sublist orders
      have hde : orders.dedup = orders := hsub.eq_of_length (by omega)
      rw [← hde]
      exact List.nodup_dedup orders
    simp [configure_monitors_st, hsel, bindOk, horders, hcond]
  · intro hnodup
    have hdedup : orders.dedup = orders := List.dedup_eq_self.mpr hnodup
    have heq : sel.length = orders.dedup.length := by
      rw [hdedup]
      omega
    cases hmed : (sortByOrder sel).get? (((sortByOrder sel).length - 1) / 2) with
    | none =>
      have hmed2 : (sortByOrder sel)[((sortByOrder sel).length - 1) / 2]? = none := by
        rw [← List.get?_eq_getElem?]
        exact hmed
      refine ⟨sortByOrder sel, ?_, ?_, ?_⟩
      · simp [configure_monitors, configure_monitors_st, hsel, bindOk, horders, heq, hmed2]
      · exact List.sorted_insertionSort monLE sel
      · exact (List.perm_insertionSort monLE sel).map strip_primary
    | some q =>
      obtain ⟨mk0, mm⟩ := q
      have hmed2 : (sortByOrder sel)[((sortByOrder sel).length - 1) / 2]? = some (mk0, mm) := by
        rw [← List.get?_eq_getElem?]
        exact hmed
      refine ⟨(sortByOrder sel).set (((sortByOrder sel).length - 1) / 2)
        (mk0, { mm with primary := some true }), ?_, ?_, ?_⟩
      · simp [configure_monitors, configure_monitors_st, hsel, bindOk, horders, heq, hmed2]
      · exact sorted_set_primary _ _ _ _ hmed (List.sorted_insertionSort monLE sel)
      · rw [map_strip_set_primary _ _ _ _ hmed]
        exact (List.perm_insertionSort monLE sel).map strip_primary

theorem sel_mem_spec (config monitors sel ms : List (String × Mon)) (log : List LogEntry)
    (h : select_loop config monitors = .ok (sel, ms, log)) (p : String × Mon)
    (hp : p ∈ sel) :
    ∃ q ∈ monitors, ∃ e c, q.2.edid = some e ∧ alookup config e = some c ∧
      p = (q.1, update_mon q.2 c) := by
  obtain ⟨-, hselspec⟩ := select_loop_spec config monitors sel ms log h
  subst hselspec
  rcases List.mem_filterMap.mp hp with ⟨q, hq, hqe⟩
  refine ⟨q, hq, ?_⟩
  unfold select_entry at hqe
  split at hqe
  · rename_i e hed
    split at hqe
    · rename_i c hal
      injection hqe with hqe
      exact ⟨e, c, hed, hal, hqe.symm⟩
    · cases hqe
  · cases hqe

theorem alookup_value_mem (config : List (String × Mon)) (e : String) (c : Mon)
    (h : alookup config e = some c) : ∃ pc ∈ config, pc.2 = c := by
  unfold alookup at h
  cases hf : config.find? (fun p => p.1 == e) with
  | none => rw [hf] at h; cases h
  | some pc =>
    rw [hf] at h
    injection h with h2
    exact ⟨pc, List.mem_of_find?_eq_some hf, h2⟩

theorem orElse_ne_some_true (a b : Option Bool) (ha : a ≠ some true) (hb : b ≠ some true) :
    (a <|> b) ≠ some true := by
  cases a with
  | none => simpa using hb
  | some x => simpa using ha

/-- C5 (amended): with distinct order keys the resolver returns a layout of
the same length as the matched set whose monitor at the median index
`(count - 1) / 2` always carries the primary flag — an explicit primary
flag in the configuration does not suppress this default — and, when no
detected monitor or configuration entry carries an explicit primary flag,
the median monitor is the only primary one. -/
theorem configure_monitors_primary_median (monitors config : List (String × Mon))
    (sel ms : List (String × Mon)) (log : List LogEntry) (orders : List Int)
    (hsel : select_loop config monitors = .ok (sel, ms, log))
    (horders : optOrders sel = some orders)
    (hnodup : orders.Nodup)
    (hne : sel ≠ []) :
    ∃ l, configure_monitors monitors config = some l ∧
      l.length = sel.length ∧
      (∀ p, l.get? ((l.length - 1) / 2) = some p → p.2.primary = some true) ∧
      ((∀ q ∈ monitors, q.2.primary ≠ some true) →
       (∀ q ∈ config, q.2.primary ≠ some true) →
        ∀ i p, i ≠ (l.length - 1) / 2 → l.get? i = some p →
          p.2.primary ≠ some true) := by
  have hlen : orders.length = sel.length := optOrders_length sel orders horders
  have hdedup : orders.dedup = orders := List.dedup_eq_self.mpr hnodup
  have heq : sel.length = orders.dedup.length := by
    rw [hdedup]
    omega
  have hslen : (sortByOrder sel).length = sel.length :=
    (List.perm_insertionSort monLE sel).length_eq
  have hpos : 0 < (sortByOrder sel).length := by
    rw [hslen]
    cases sel with
    | nil => cases hne rfl
    | cons a t => simp
  have hmedlt : ((sortByOrder sel).length - 1) / 2 < (sortByOrder sel).length := by
    omega
  cases hmed : (sortByOrder sel).get? (((sortByOrder sel).length - 1) / 2) with
  | none =>
    rw [List.get?_eq_none] at hmed
    omega
  | some q =>
    obtain ⟨mk0, mm⟩ := q
    have hmed2 : (sortByOrder sel)[((sortByOrder sel).length - 1) / 2]? = some (mk0, mm) := by
      rw [← List.get?_eq_getElem?]
      exact hmed
    refine ⟨(sortByOrder sel).set (((sortByOrder sel).length - 1) / 2)
      (mk0, { mm with primary := some true }), ?_, ?_, ?_, ?_⟩
    · simp [configure_monitors, configure_monitors_st, hsel, bindOk, horders, heq, hmed2]
    · rw [List.length_set, hslen]
    · intro p hp
      rw [List.length_set] at hp
      rw [List.get?_set_eq_of_lt _ hmedlt] at hp
      injection hp with hp2
      rw [← hp2]
    · intro hqm hqc i p hi hp
      rw [List.length_set] at hi
      rw [List.get?_set_ne _ _ (Ne.symm hi)] at hp
      have hpmem : p ∈ sel :=
        (List.mem_insertionSort monLE).mp (by simpa [sortByOrder] using List.get?_mem hp)
      obtain ⟨qq, hqq, e, c, hed, hal, hpe⟩ :=
        sel_mem_spec config monitors sel ms log hsel p hpmem
      rw [hpe]
      have hc' : c.primary ≠ some true := by
        obtain ⟨pc, hpc, hpc2⟩ := alookup_value_mem config e c hal
        rw [← hpc2]
        exact hqc pc hpc
      have hq' : qq.2.primary ≠ some true := hqm qq hqq
      simpa [update_mon] using orElse_ne_some_true _ _ hc' hq'

/-- Detected monitors used by the C2 witness. -/
def c2mons : List (String × Mon) :=
  [("DP-1", { edid := some "EA", resolution := some "1920x1200" }),
   ("DP-2", { edid := some "EB", resolution := some "1920x1080" })]

/-- Collision-free configuration used by the C2 witness. -/
def c2cfgGood : List (String × Mon) :=
  [("EA", { order := some 2 }), ("EB", { order := some 1 })]

/-- Colliding configuration used by the C2 witness. -/
def c2cfgBad : List (String × Mon) :=
  [("EA", { order := some 1 }), ("EB", { order := some 1 })]

/-- Matched monitors for `c2mons` under `c2cfgGood`. -/
def c2selGood : List (String × Mon) :=
  [("DP-1", { edid := some "EA", resolution := some "1920x1200", order := some 2 }),
   ("DP-2", { edid := some "EB", resolution := some "1920x1080", order := some 1 })]

/-- Matched monitors for `c2mons` under `c2cfgBad`. -/
def c2selBad : List (String × Mon) :=
  [("DP-1", { edid := some "EA", resolution := some "1920x1200", order := some 1 }),
   ("DP-2", { edid := some "EB", resolution := some "1920x1080", order := some 1 })]

/-- Witness for C2: with orders `[2, 1]` the resolver sorts ascending; with
the colliding orders `[1, 1]` it reports the collision and returns no
layout. -/
theorem configure_monitors_order_collision_witness :
    (∃ l, configure_monitors c2mons c2cfgGood = some l ∧
      List.Sorted monLE l ∧
      List.Perm (l.map strip_primary) (c2selGood.map strip_primary)) ∧
    configure_monitors_st c2mons c2cfgBad =
      .ok ⟨none, c2selBad, [] ++ [.collision]⟩ :=
  ⟨(configure_monitors_order_collision c2mons c2cfgGood c2selGood c2selGood []
      [2, 1] (by decide) rfl rfl).2 (by decide),
   (configure_monitors_order_collision c2mons c2cfgBad c2selBad c2selBad []
      [1, 1] (by decide) rfl rfl).1 (by decide)⟩

/-- Detected monitors used by the C5 witness. -/
def c5mons : List (String × Mon) :=
  [("DP-1", { edid := some "EA" }), ("DP-2", { edid := some "EB" }),
   ("DP-3", { edid := some "EC" })]

/-- Configuration used by the C5 witness (no explicit primary flag). -/
def c5cfg : List (String × Mon) :=
  [("EA", { order := some 1 }), ("EB", { order := some 2 }), ("EC", { order := some 3 })]

/-- Matched monitors for `c5mons` under `c5cfg`. -/
def c5sel : List (String × Mon) :=
  [("DP-1", { edid := some "EA", order := some 1 }),
   ("DP-2", { edid := some "EB", order := some 2 }),
   ("DP-3", { edid := some "EC", order := some 3 })]

/-- Witness for C5: three monitors without explicit flags; the layout marks
exactly the monitor at index `(3 - 1) / 2 = 1` primary. -/
theorem configure_monitors_primary_median_witness :
    ∃ l, configure_monitors c5mons c5cfg = some l ∧
      l.length = c5sel.length ∧
      (∀ p, l.get? ((l.length - 1) / 2) = some p → p.2.primary = some true) ∧
      ((∀ q ∈ c5mons, q.2.primary ≠ some true) →
       (∀ q ∈ c5cfg, q.2.primary ≠ some true) →
        ∀ i p, i ≠ (l.length - 1) / 2 → l.get? i = some p →
          p.2.primary ≠ some true) :=
  configure_monitors_primary_median c5mons c5cfg c5sel c5sel [] [1, 2, 3]
    rfl rfl (by decide) (by decide)

/-- Counterexample for C5: the configuration sets an explicit primary flag
on `DP-2` (order 2), yet the resolver still marks the default median
monitor `DP-1` primary as well — the explicit flag does not override the
median-based selection. -/
theorem explicit_primary_does_not_override_default :
    configure_monitors
      [("DP-1", { edid := some "EA", resolution := some "1920x1200" }),
       ("DP-2", { edid := some "EB", resolution := some "1920x1080" })]
      [("EA", { order := some 1 }), ("EB", { order := some 2, primary := some true })] =
      some [("DP-1", { edid := some "EA", resolution := some "1920x1200", order := some 1, primary := some true }),
            ("DP-2", { edid := some "EB", resolution := some "1920x1080", order := some 2, primary := some true })] := by
  rfl

theorem bindErr (u : Unit) (f : α → Except Unit β) :
    ((Except.error u : Except Unit α) >>= f) = Except.error u := rfl

/-- C9 (amended): the resolver is not pure in its detected-monitors input —
it merges configuration fields into the matched monitor dicts in place (and
marks the median one primary) — but the mutation is exactly that: the key
sequence is unchanged, unmatched monitors are returned untouched, and every
matched monitor ends up as its config-merged value, possibly with the
primary flag added. -/
theorem configure_monitors_state_effect (monitors config : List (String × Mon))
    (r : ConfigureResult)
    (hk : (monitors.map Prod.fst).Nodup)
    (h : configure_monitors_st monitors config = .ok r) :
    r.monitors.map Prod.fst = monitors.map Prod.fst ∧
    (∀ q ∈ monitors, ∀ e, q.2.edid = some e → alookup config e = none →
      q ∈ r.monitors) ∧
    (∀ q ∈ monitors, ∀ e c, q.2.edid = some e → alookup config e = some c →
      ((q.1, update_mon q.2 c) ∈ r.monitors ∨
       (q.1, { update_mon q.2 c with primary := some true }) ∈ r.monitors)) := by
  cases hsel : select_loop config monitors with
  | error u =>
    have hb : configure_monitors_st monitors config = .error u := by
      simp [configure_monitors_st, hsel, bindErr]
    rw [hb] at h
    cases h
  | ok triple =>
    obtain ⟨sel, ms, log⟩ := triple
    obtain ⟨hms, hselspec⟩ := select_loop_spec config monitors sel ms log hsel
    have hmsfst : ms.map Prod.fst = monitors.map Prod.fst := by
      rw [hms, List.map_map]
      exact List.map_congr_left (fun p _ => merge_entry_fst config p)
    have hunm : ∀ q ∈ monitors, ∀ e, q.2.edid = some e → alookup config e = none →
        q ∈ ms := by
      intro q hq e hed hal
      have hme : merge_entry config q = q := by
        simp [merge_entry, hed, hal]
      rw [hms, ← hme]
      exact List.mem_map_of_mem _ hq
    have hmat : ∀ q ∈ monitors, ∀ e c, q.2.edid = some e → alookup config e = some c →
        (q.1, update_mon q.2 c) ∈ ms := by
      intro q hq e c hed hal
      have hme : merge_entry config q = (q.1, update_mon q.2 c) := by
        simp [merge_entry, hed, hal]
      rw [hms, ← hme]
      exact List.mem_map_of_mem _ hq
    cases hord : optOrders sel with
    | none =>
      have hb : configure_monitors_st monitors config = .error () := by
        simp [configure_monitors_st, hsel, bindOk, hord]
      rw [hb] at h
      cases h
    | some orders =>
      by_cases hcond : sel.length = orders.dedup.length
      · cases hmed : (sortByOrder sel)[((sortByOrder sel).length - 1) / 2]? with
        | none =>
          have hb : configure_monitors_st monitors config =
              .ok ⟨some (sortByOrder sel), ms, log⟩ := by
            simp [configure_monitors_st, hsel, bindOk, hord, hcond, hmed]
          rw [hb] at h
          injection h with h2
          rw [← h2]
          exact ⟨hmsfst, hunm, fun q hq e c hed hal => Or.inl (hmat q hq e c hed hal)⟩
        | some q0 =>
          obtain ⟨mk0, mm⟩ := q0
          have hb : configure_monitors_st monitors config =
              .ok ⟨some ((sortByOrder sel).set (((sortByOrder sel).length - 1) / 2)
                  (mk0, { mm with primary := some true })),
                ms.map (fun p => if p.1 == mk0 then
                  (p.1, { mm with primary := some true }) else p), log⟩ := by
            simp [configure_monitors_st, hsel, bindOk, hord, hcond, hmed]
          rw [hb] at h
          injection h with h2
          rw [← h2]
          have hmedmem : (mk0, mm) ∈ sel := by
            have h1 : (mk0, mm) ∈ sortByOrder sel := by
              have := List.get?_mem (by rw [List.get?_eq_getElem?]; exact hmed)
              exact this
            exact (List.mem_insertionSort monLE).mp (by simpa [sortByOrder] using h1)
          obtain ⟨qm, hqm, em, cm, hedm, halm, hpm⟩ :=
            sel_mem_spec config monitors sel ms log hsel (mk0, mm) hmedmem
          have hqmfst : qm.1 = mk0 := by
            have := congrArg Prod.fst hpm
            simpa using this.symm
          have hmmval : mm = update_mon qm.2 cm := by
            have := congrArg Prod.snd hpm
            simpa using this
          refine ⟨?_, ?_, ?_⟩
          · rw [List.map_map, ← hmsfst]
            refine List.map_congr_left ?_
            intro p _
            by_cases hpk : p.1 = mk0 <;> simp [hpk]
          · intro q hq e hed hal
            have hq1 : q.1 ≠ mk0 := by
              intro hcon
              have hqeq : q = qm :=
                List.inj_on_of_nodup_map hk hq hqm (by rw [hcon, hqmfst])
              rw [hqeq, hedm] at hed
              injection hed with hed2
              rw [← hed2] at hal
              rw [hal] at halm
              cases halm
            have himg : (fun p => if p.1 == mk0 then
                (p.1, { mm with primary := some true }) else p) q = q := by
              simp [hq1]
            rw [← himg]
            exact List.mem_map_of_mem _ (hunm q hq e hed hal)
          · intro q hq e c hed hal
            by_cases hq1 : q.1 = mk0
            · right
              have hqeq : q = qm :=
                List.inj_on_of_nodup_map hk hq hqm (by rw [hq1, hqmfst])
              have hceq : c = cm := by
                rw [hqeq, hedm] at hed
                injection hed with hed2
                rw [← hed2] at hal
                rw [hal] at halm
                injection halm with h3
              refine List.mem_map.mpr ⟨(q.1, update_mon q.2 c), hmat q hq e c hed hal, ?_⟩
              have hmm2 : mm = update_mon q.2 c := by
                rw [hqeq, hceq]
                exact hmmval
              simp [hq1, ← hmm2]
            · left
              have himg : (fun p => if p.1 == mk0 then
                  (p.1, { mm with primary := some true }) else p)
                  (q.1, update_mon q.2 c) = (q.1, update_mon q.2 c) := by
                simp [hq1]
              rw [← himg]
              exact List.mem_map_of_mem _ (hmat q hq e c hed hal)
      · have hb : configure_monitors_st monitors config =
            .ok ⟨none, ms, log ++ [.collision]⟩ := by
          simp [configure_monitors_st, hsel, bindOk, hord, hcond]
        rw [hb] at h
        injection h with h2
        rw [← h2]
        exact ⟨hmsfst, hunm, fun q hq e c hed hal => Or.inl (hmat q hq e c hed hal)⟩

/-- Detected monitors used by the C9 witness and counterexample. -/
def c9mons : List (String × Mon) :=
  [("DP-1", { edid := some "E", resolution := some "1920x1080" })]

/-- Configuration used by the C9 witness and counterexample. -/
def c9cfg : List (String × Mon) := [("E", { order := some 1 })]

/-- Post-call state of the resolver on `c9mons` / `c9cfg`. -/
def c9result : ConfigureResult :=
  { layout := some [("DP-1", { edid := some "E", resolution := some "1920x1080", order := some 1, primary := some true })]
    monitors := [("DP-1", { edid := some "E", resolution := some "1920x1080", order := some 1, primary := some true })]
    log := [] }

/-- Witness for C9: the matched monitor `DP-1` is returned merged (here
with the primary flag added), with the key sequence preserved. -/
theorem configure_monitors_state_effect_witness :
    c9result.monitors.map Prod.fst = c9mons.map Prod.fst ∧
    (∀ q ∈ c9mons, ∀ e, q.2.edid = some e → alookup c9cfg e = none →
      q ∈ c9result.monitors) ∧
    (∀ q ∈ c9mons, ∀ e c, q.2.edid = some e → alookup c9cfg e = some c →
      ((q.1, update_mon q.2 c) ∈ c9result.monitors ∨
       (q.1, { update_mon q.2 c with primary := some true }) ∈ c9result.monitors)) :=
  configure_monitors_state_effect c9mons c9cfg c9result (by decide) rfl

/-- Counterexample for C9: the resolver succeeds on this input, yet the
post-call detected-monitors mapping differs from the one passed in — the
matched monitor has been mutated (config fields merged, primary added). -/
theorem configure_monitors_mutates_input :
    ((configure_monitors_st c9mons c9cfg).toOption.map ConfigureResult.monitors).isSome ∧
    (configure_monitors_st c9mons c9cfg).toOption.map ConfigureResult.monitors ≠
      some c9mons := by
  constructor
  · decide
  · decide

end Screenorder
